import Mathlib

/-!
Verification development for the Online-CAVTool core: the CAV script
tokenizer (`src/js/tokenizer.js`), the recursive-descent parser/evaluator
(`src/js/parser.js`) and the simulation layer (`src/js/simulation.js`).

Modelling notes (idealizations, stated once here):

* JS numbers are modelled as exact rationals plus a distinguished `NaN`
  value (`Val`).  Floating-point rounding, signed zero and the infinities
  are not modelled; division is exact on rationals.  `%` follows the JS
  remainder rule `a - b * trunc(a / b)` and yields `NaN` when the divisor
  is `0`, exactly as JS does for finite operands.
* The transcendental built-ins (`cos`, `sin`, `tan`, `exp`, `sqrt`, `pow`,
  `random`) return irrational floats in JS; their numeric results are
  supplied by an `oracle : String → List Val → Val` parameter that every
  theorem quantifies over.  (`Math.random` is additionally impure in JS;
  the oracle makes it deterministic per call shape, which no claim here
  depends on.)  `Math.PI` and `Math.E` are specific IEEE-754 doubles and
  are embedded as their exact rational values.
* JS objects used as dictionaries (`this.variables`,
  `this.staticVariables`, `CONSTANTS`, `BUILTIN_FUNCTIONS`) are modelled
  by their own string-keyed entries (association lists in insertion
  order).  The `Object.prototype` chain (`"toString" in obj` being true,
  etc.) is not modelled.
* The recursive-descent evaluator and the tokenizer loop are given a
  `fuel : Nat` bound; `none` means the fuel ran out (which also soaks up
  the one genuine JS non-termination: a stray top-level `}` spins the
  statement loop forever).  All claims are stated for arbitrary fuel, and
  witnesses run with concrete fuel.
* Statement execution in `parser.js` only ever touches `this.tokens`,
  `this.pos` and `this.variables`; the executor state `ExecState` carries
  exactly those fields, and `parse` reassembles the full parser state
  around it.
* The simulation engine's `async` pacing (`sleep`), callbacks and the
  mid-run `stop()` flag are outside the synchronous model: `run` is the
  loop body run to completion, returning the trajectory plus a ghost log
  of which `(step, senderIndex)` pairs invoked `calculate`.  A `TypeError`
  escaping `Sender.calculate` (see `CalcOutcome.crash`) propagates as an
  `Except.error`.
-/

/- `Rat.add`, `Rat.mul`, `Rat.sub`, `Rat.inv` and `Rat.ofScientific` are
`@[irreducible]` in Batteries, which blocks elaborator-side evaluation of
concrete runs (`decide`); the kernel re-checks every such proof with its
own reduction anyway. -/
attribute [local semireducible] Rat.add Rat.mul Rat.sub Rat.inv Rat.ofScientific

set_option maxHeartbeats 1600000

/-- JS numeric value: an exact rational or `NaN`. -/
inductive Val where
  | num (q : ℚ)
  | nan
deriving DecidableEq, Repr

/-- `a + b` on JS numbers (NaN propagates). -/
def addV : Val → Val → Val
  | Val.num a, Val.num b => Val.num (a + b)
  | _, _ => Val.nan

/-- `a - b` on JS numbers. -/
def subV : Val → Val → Val
  | Val.num a, Val.num b => Val.num (a - b)
  | _, _ => Val.nan

/-- `a * b` on JS numbers. -/
def mulV : Val → Val → Val
  | Val.num a, Val.num b => Val.num (a * b)
  | _, _ => Val.nan

/-- `a / b` on JS numbers.  The `factor` code guards `b = 0` with a thrown
error before dividing, so the `b = 0` case here is unreachable from the
interpreter (JS would give an infinity, which `Val` does not carry). -/
def jsDiv : Val → Val → Val
  | Val.num a, Val.num b => if b = 0 then Val.nan else Val.num (a / b)
  | _, _ => Val.nan

/-- `min` on rationals, kept as a plain conditional so that concrete runs
reduce. -/
def minRat (a b : ℚ) : ℚ := if a ≤ b then a else b

/-- `max` on rationals. -/
def maxRat (a b : ℚ) : ℚ := if a ≤ b then b else a

/-- Absolute value on rationals. -/
def absRat (a : ℚ) : ℚ := if a < 0 then -a else a

/-- Truncation toward zero, as JS `Math.trunc` / the `%` rule uses. -/
def ratTrunc (q : ℚ) : ℤ := if 0 ≤ q then Rat.floor q else Rat.ceil q

/-- `a % b` on JS numbers: `a - b * trunc(a / b)` for finite operands,
`NaN` when the divisor is `0` or an operand is `NaN`. -/
def jsMod : Val → Val → Val
  | Val.num a, Val.num b =>
    if b = 0 then Val.nan else Val.num (a - b * ((ratTrunc (a / b) : ℤ) : ℚ))
  | _, _ => Val.nan

/-- Unary minus. -/
def negV : Val → Val
  | Val.num a => Val.num (-a)
  | _ => Val.nan

/-- JS truthiness as the DSL uses it: `value > 0` (false on NaN). -/
def jsGtZero : Val → Bool
  | Val.num a => decide (0 < a)
  | _ => false

/-- JS strict equality `===` on numbers (`NaN === x` is false). -/
def strictEqV : Val → Val → Bool
  | Val.num a, Val.num b => a == b
  | _, _ => false

/-- `a < b` (false when an operand is NaN). -/
def ltV : Val → Val → Bool
  | Val.num a, Val.num b => decide (a < b)
  | _, _ => false

/-- `a > b`. -/
def gtV : Val → Val → Bool
  | Val.num a, Val.num b => decide (b < a)
  | _, _ => false

/-- `a <= b`. -/
def leV : Val → Val → Bool
  | Val.num a, Val.num b => decide (a ≤ b)
  | _, _ => false

/-- `a >= b`. -/
def geV : Val → Val → Bool
  | Val.num a, Val.num b => decide (b ≤ a)
  | _, _ => false

/-- `Math.min(a, b)` (NaN if either operand is NaN). -/
def jsMin : Val → Val → Val
  | Val.num a, Val.num b => Val.num (minRat a b)
  | _, _ => Val.nan

/-- `Math.max(a, b)` (NaN if either operand is NaN). -/
def jsMax : Val → Val → Val
  | Val.num a, Val.num b => Val.num (maxRat a b)
  | _, _ => Val.nan

/-- `Math.abs`. -/
def absV : Val → Val
  | Val.num a => Val.num (absRat a)
  | _ => Val.nan

/-- `Math.round`: round half toward positive infinity. -/
def roundV : Val → Val
  | Val.num a => Val.num ((Rat.floor (a + 1 / 2) : ℤ) : ℚ)
  | _ => Val.nan

/-- A boolean result of the DSL is the number `1` or `0`. -/
def boolVal (b : Bool) : Val := if b then Val.num 1 else Val.num 0

/-- The `||` combination step in `ScriptParser.or`:
`left = (left > 0 || right > 0) ? 1 : 0`. -/
def orCombine (left right : Val) : Val := boolVal (jsGtZero left || jsGtZero right)

/-- The `&&` combination step in `ScriptParser.and`:
`left = (left > 0 && right > 0) ? 1 : 0`. -/
def andCombine (left right : Val) : Val := boolVal (jsGtZero left && jsGtZero right)

/-- `this.variables.rate || 0` in the return value of `parse`: a nonzero
number is itself, while `0`, `NaN` and a missing entry give `0`. -/
def jsOrZero : Option Val → Val
  | some (Val.num q) => Val.num q
  | _ => Val.num 0

/-- The exact rational value of the IEEE-754 double `Math.PI`. -/
def piRat : ℚ := 884279719003555 / 281474976710656

/-- The exact rational value of the IEEE-754 double `Math.E`. -/
def eRat : ℚ := 6121026514868073 / 2251799813685248

/-- Keys of the `CONSTANTS` object in `parser.js`. -/
def isConstName (s : String) : Bool := s == "pi" || s == "e"

/-- `CONSTANTS[name]` for `name ∈ {pi, e}`. -/
def constVal (s : String) : ℚ := if s == "pi" then piRat else eRat

/-- `args[i]`, with a missing argument behaving as `undefined`, which every
numeric `Math` function maps to `NaN`. -/
def argD (args : List Val) (i : Nat) : Val := (args.get? i).getD Val.nan

/-- The `BUILTIN_FUNCTIONS` table.  Exactly representable functions are
computed; the transcendental ones are delegated to the oracle.  `none`
means the name is not in the table. -/
def applyBuiltin (oracle : String → List Val → Val) (lower : String)
    (args : List Val) : Option Val :=
  match lower with
  | "abs" => some (absV (argD args 0))
  | "cos" => some (oracle lower args)
  | "sin" => some (oracle lower args)
  | "tan" => some (oracle lower args)
  | "exp" => some (oracle lower args)
  | "sqrt" => some (oracle lower args)
  | "int" => some (roundV (argD args 0))
  | "pow" => some (oracle lower args)
  | "min" => some (jsMin (argD args 0) (argD args 1))
  | "max" => some (jsMax (argD args 0) (argD args 1))
  | "random" => some (oracle lower args)
  | _ => none

/-! ## Character classes and string helpers (tokenizer.js + JS stdlib) -/

/-- `isDigit` from the tokenizer. -/
def isDigitC (c : Char) : Bool := decide ('0' ≤ c ∧ c ≤ '9')

/-- `isAlpha` from the tokenizer. -/
def isAlphaC (c : Char) : Bool :=
  decide (('a' ≤ c ∧ c ≤ 'z') ∨ ('A' ≤ c ∧ c ≤ 'Z'))

/-- `isAlphaNumeric` from the tokenizer. -/
def isAlphaNumericC (c : Char) : Bool := isAlphaC c || isDigitC c || c == '_'

/-- The ASCII whitespace class of JS `\s` / `trim` (unicode spaces are not
modelled; the scripts in scope are ASCII). -/
def isJsSpace (c : Char) : Bool :=
  c == ' ' || c == '\t' || c == '\n' || c == '\r' || c == '\x0b' || c == '\x0c'

/-- ASCII lowercasing, as JS `toLowerCase` on the identifiers in scope. -/
def lowerStr (s : String) : String := String.mk (s.toList.map Char.toLower)

/-- JS `String.prototype.trim`. -/
def trimChars (cs : List Char) : List Char :=
  ((cs.dropWhile isJsSpace).reverse.dropWhile isJsSpace).reverse

/-- Accumulate a leading run of decimal digits: value, digit count, rest. -/
def digitsValAux : List Char → Nat → Nat → (Nat × Nat × List Char)
  | [], acc, n => (acc, n, [])
  | c :: rest, acc, n =>
    if isDigitC c then digitsValAux rest (acc * 10 + (c.toNat - 48)) (n + 1)
    else (acc, n, c :: rest)

/-- `10 ^ n` as a rational, via the primitive natural-number power (the
`Monoid.npow` instance path on `ℚ` does not reduce well). -/
def pow10 (n : Nat) : ℚ := ((10 ^ n : ℕ) : ℚ)

/-- `10 ^ e` for an integer exponent. -/
def zpow10 : ℤ → ℚ
  | Int.ofNat n => pow10 n
  | Int.negSucc n => 1 / pow10 (n + 1)

/-- Exponent part of `parseFloat`: optional sign then digits; an `e` with
no digits after it is ignored (JS `parseFloat("1e") = 1`). -/
def parseFloatExp : List Char → ℤ
  | e :: rest =>
    if e == 'e' || e == 'E' then
      let (sgn, rest1) : ℤ × List Char :=
        match rest with
        | '+' :: r => (1, r)
        | '-' :: r => (-1, r)
        | r => (1, r)
      let (ev, ec, _) := digitsValAux rest1 0 0
      if ec = 0 then 0 else sgn * ev
    else 0
  | [] => 0

/-- JS `parseFloat`, on the decimal fragment it is used for here: optional
sign, digits with at most one dot, optional exponent, trailing junk
ignored; `NaN` when no digit is found.  (The `Infinity` literal is not
modelled — no directive in scope uses it.) -/
def jsParseFloat (s : String) : Val :=
  let cs := s.toList.dropWhile isJsSpace
  let (sgn, cs1) : ℚ × List Char :=
    match cs with
    | '+' :: r => (1, r)
    | '-' :: r => (-1, r)
    | r => (1, r)
  let (ip, ic, r1) := digitsValAux cs1 0 0
  let (fp, fc, r2) :=
    match r1 with
    | '.' :: rr => digitsValAux rr 0 0
    | _ => (0, 0, r1)
  if ic + fc = 0 then Val.nan
  else
    let mant : ℚ := (ip : ℚ) + (fp : ℚ) / pow10 fc
    Val.num (sgn * mant * zpow10 (parseFloatExp r2))

/-! ## Tokens (tokenizer.js) -/

/-- `TokenType` from the tokenizer. -/
inductive TokenType where
  | NUMBER | NAME | KEYWORD | OPERATOR
  | LPAREN | RPAREN | LBRACE | RBRACE
  | SEMICOLON | COMMA | ASSIGN | PREPROCESSOR | EOF
deriving DecidableEq, Repr

/-- A token's `value` field is a number (NUMBER), a string (everything
else) or `null` (EOF). -/
inductive TokVal where
  | num (q : ℚ)
  | str (s : String)
  | null
deriving DecidableEq, Repr

/-- `Token` from the tokenizer. -/
structure Token where
  type : TokenType
  value : TokVal
  line : Nat
deriving DecidableEq, Repr

/-- The EOF sentinel used when indexing past the end (unreachable while the
parser's invariant `pos ≤` index-of-EOF holds). -/
def eofTok : Token := ⟨TokenType.EOF, TokVal.null, 0⟩

/-- `OPERATORS` from the tokenizer, multi-character operators first. -/
def OPERATORS : List String :=
  ["<=", ">=", "==", "!=", "&&", "||", "+", "-", "*", "/", "%", "<", ">"]

/-- Strip `p` from the front of `cs` if it is literally there. -/
def stripPre : List Char → List Char → Option (List Char)
  | [], cs => some cs
  | _ :: _, [] => none
  | p :: ps, c :: cs => if p == c then stripPre ps cs else none

/-- `tryReadOperator`: first operator of the table matching a prefix. -/
def tryOps : List String → List Char → Option (String × List Char)
  | [], _ => none
  | op :: ops, cs =>
    match stripPre op.toList cs with
    | some rest => some (op, rest)
    | none => tryOps ops cs

/-- The single-character token switch at the end of the tokenizer loop. -/
def singleTok : Char → Option (TokenType × String)
  | '(' => some (TokenType.LPAREN, "(")
  | ')' => some (TokenType.RPAREN, ")")
  | '{' => some (TokenType.LBRACE, "\x7b")
  | '}' => some (TokenType.RBRACE, "\x7d")
  | ';' => some (TokenType.SEMICOLON, ";")
  | ',' => some (TokenType.COMMA, ",")
  | '=' => some (TokenType.ASSIGN, "=")
  | _ => none

/-- `skipWhitespaceAndComments` (despite its JS name it only skips
whitespace): consumes spaces, tabs, carriage returns and newlines,
counting lines, and reports the last consumed character. -/
def skipWsTk : List Char → Option Char → Nat → (List Char × Option Char × Nat)
  | [], prev, line => ([], prev, line)
  | c :: rest, prev, line =>
    if c == ' ' || c == '\t' || c == '\r' then skipWsTk rest (some c) line
    else if c == '\n' then skipWsTk rest (some c) (line + 1)
    else (c :: rest, prev, line)

/-- `readNumber`'s scan: digits with at most one dot. -/
def numSpan : List Char → Bool → (List Char × List Char)
  | [], _ => ([], [])
  | c :: rest, hasDot =>
    if isDigitC c then
      let (a, b) := numSpan rest hasDot
      (c :: a, b)
    else if c == '.' && !hasDot then
      let (a, b) := numSpan rest true
      (c :: a, b)
    else ([], c :: rest)

/-- Fold a digit list to a natural number. -/
def digitsNat (cs : List Char) : Nat :=
  cs.foldl (fun acc c => acc * 10 + (c.toNat - 48)) 0

/-- The value `parseFloat` gives the substring scanned by `readNumber`
(shape `ddd`, `ddd.`, `.ddd` or `ddd.ddd`, always at least one digit). -/
def numValOf (cs : List Char) : ℚ :=
  let ip := cs.takeWhile (fun c => c != '.')
  let fp := (cs.dropWhile (fun c => c != '.')).drop 1
  (digitsNat ip : ℚ) + (digitsNat fp : ℚ) / pow10 fp.length

/-- Last character of a consumed run, falling back to the previous
last-consumed character; tracks `this.source[this.pos - 1]`. -/
def lastCharOf (l : List Char) (d : Option Char) : Option Char :=
  match l.getLast? with
  | some c => some c
  | none => d

/-- The character peeked by `this.peek(1)` (`'\0'` past the end). -/
def peekDigit : List Char → Bool
  | d :: _ => isDigitC d
  | [] => false

/-- The `tokenize` loop.  `prev` is the last consumed character (so the
`'#'`-at-line-start test `pos == 0 || source[pos-1] == '\n'` becomes
`prev = none ∨ prev = '\n'`).  `none` = out of fuel (never happens with
fuel `length + 1`, since every iteration but the last consumes a
character). -/
def tokLoop : Nat → List Char → Option Char → Nat → List Token →
    Option (Except String (List Token))
  | 0, _, _, _, _ => none
  | Nat.succ f, cs, prev, line, acc =>
    let (cs1, prev1, line1) := skipWsTk cs prev line
    match cs1 with
    | [] => some (Except.ok (acc ++ [⟨TokenType.EOF, TokVal.null, line1⟩]))
    | c :: rest =>
      if c == '#' && (prev1 == none || prev1 == some '\n') then
        -- readPreprocessor: to end of line, token value trimmed
        let dir := (c :: rest).takeWhile (fun x => x != '\n')
        let rest2 := (c :: rest).dropWhile (fun x => x != '\n')
        tokLoop f rest2 (lastCharOf dir prev1) line1
          (acc ++ [⟨TokenType.PREPROCESSOR, TokVal.str (String.mk (trimChars dir)), line1⟩])
      else if c == '#' then
        -- skipLineComment
        let dropped := (c :: rest).takeWhile (fun x => x != '\n')
        let rest2 := (c :: rest).dropWhile (fun x => x != '\n')
        tokLoop f rest2 (lastCharOf dropped prev1) line1 acc
      else if isDigitC c || (c == '.' && peekDigit rest) then
        let (ns, rest2) := numSpan (c :: rest) false
        tokLoop f rest2 (lastCharOf ns prev1) line1
          (acc ++ [⟨TokenType.NUMBER, TokVal.num (numValOf ns), line1⟩])
      else if isAlphaC c || c == '_' then
        -- readName: keyword check is `KEYWORDS.has(lower)` with
        -- KEYWORDS = {if, else}; the keyword token carries the lowercased
        -- name, other names keep their case
        let nm := (c :: rest).takeWhile isAlphaNumericC
        let rest2 := (c :: rest).dropWhile isAlphaNumericC
        let name := String.mk nm
        let lower := lowerStr name
        let tok : Token :=
          if lower == "if" || lower == "else"
          then ⟨TokenType.KEYWORD, TokVal.str lower, line1⟩
          else ⟨TokenType.NAME, TokVal.str name, line1⟩
        tokLoop f rest2 (lastCharOf nm prev1) line1 (acc ++ [tok])
      else
        match tryOps OPERATORS (c :: rest) with
        | some (op, rest2) =>
          tokLoop f rest2 (lastCharOf op.toList prev1) line1
            (acc ++ [⟨TokenType.OPERATOR, TokVal.str op, line1⟩])
        | none =>
          match singleTok c with
          | some tk =>
            tokLoop f rest (some c) line1 (acc ++ [⟨tk.1, TokVal.str tk.2, line1⟩])
          | none =>
            some (Except.error (s!"Unexpected character \x27{c}\x27 at line {line1}"))

/-- `Tokenizer.tokenize`: run the loop with enough fuel for the whole
source; appends the EOF token; a lexical error carries the offending
character and line. -/
def tokenize (source : String) : Option (Except String (List Token)) :=
  tokLoop (source.length + 1) source.toList none 1 []

/-! ## Parser state (parser.js) -/

/-- A parameter descriptor pushed by `handlePreprocessor` (a
`#define_param` entry has `min`/`max`, a `#define_var` entry does not). -/
structure Param where
  name : String
  min : Option Val
  max : Option Val
  default : Val
  isStatic : Bool
deriving DecidableEq, Repr

/-- The fields of `ScriptParser`. -/
structure ScriptParser where
  source : String
  tokens : List Token
  pos : Nat
  «variables» : List (String × Val)
  staticVariables : List (String × Val)
  params : List Param
  errors : List String
deriving DecidableEq, Repr

/-- `new ScriptParser(source)`. -/
def ScriptParser.new (source : String) : ScriptParser :=
  ⟨source, [], 0, [], [], [], []⟩

/-- First-match lookup in an insertion-ordered association list (own
string-keyed entries of a JS object). -/
def lookupVar : List (String × Val) → String → Option Val
  | [], _ => none
  | (k, v) :: rest, name => if k = name then some v else lookupVar rest name

/-- `obj[name] = v`: update the existing entry in place, else append. -/
def setVar : List (String × Val) → String → Val → List (String × Val)
  | [], name, v => [(name, v)]
  | (k, w) :: rest, name, v =>
    if k = name then (k, v) :: rest else (k, w) :: setVar rest name v

/-- The state statement execution actually touches: `this.tokens`,
`this.pos` and `this.variables` (never `staticVariables`, `params` or
`errors` — those are handled around the statement loop in `parse`). -/
structure ExecState where
  tokens : List Token
  pos : Nat
  «variables» : List (String × Val)
deriving DecidableEq, Repr

deriving instance DecidableEq for Except

/-- Evaluator computations: explicit state passing, a thrown `Error`
message in the `Except.error` channel (state at throw time kept, as JS
keeps the mutated object fields), `none` = out of fuel. -/
def EvalM (α : Type) : Type := ExecState → Option (Except String α × ExecState)

/-- `pure` for `EvalM`. -/
def evPure {α : Type} (a : α) : EvalM α := fun es => some (Except.ok a, es)

/-- `bind` for `EvalM`: errors and fuel exhaustion short-circuit. -/
def evBind {α β : Type} (m : EvalM α) (f : α → EvalM β) : EvalM β := fun es =>
  match m es with
  | none => none
  | some (Except.error e, es1) => some (Except.error e, es1)
  | some (Except.ok a, es1) => f a es1

instance : Monad EvalM where
  pure := evPure
  bind := evBind

/-- `throw new Error(msg)`. -/
def throwE {α : Type} (msg : String) : EvalM α := fun es => some (Except.error msg, es)

/-- Read the executor state. -/
def getES : EvalM ExecState := fun es => some (Except.ok es, es)

/-- `this.variables[name] = v`. -/
def setVarM (name : String) (v : Val) : EvalM Unit := fun es =>
  some (Except.ok (), { es with «variables» := setVar es.variables name v })

/-- `this.current()`. -/
def currentM : EvalM Token := fun es =>
  some (Except.ok (es.tokens.getD es.pos eofTok), es)

/-- `this.isAtEnd()`. -/
def isAtEndM : EvalM Bool := fun es =>
  some (Except.ok ((es.tokens.getD es.pos eofTok).type == TokenType.EOF), es)

/-- `this.advance()`: step unless at EOF, return the previous token. -/
def advanceM : EvalM Token := fun es =>
  let atEnd := (es.tokens.getD es.pos eofTok).type == TokenType.EOF
  let es1 := if atEnd then es else { es with pos := es.pos + 1 }
  some (Except.ok (es1.tokens.getD (es1.pos - 1) eofTok), es1)

/-- `this.check(type)`. -/
def checkM (t : TokenType) : EvalM Bool := fun es =>
  let cur := es.tokens.getD es.pos eofTok
  some (Except.ok (cur.type != TokenType.EOF && cur.type == t), es)

/-- `this.matchOperator(value)`. -/
def matchOperatorM (v : String) : EvalM Bool := do
  let b ← checkM TokenType.OPERATOR
  if b then do
    let t ← currentM
    if t.value == TokVal.str v then do
      let _ ← advanceM
      pure true
    else pure false
  else pure false

/-- `this.expect(type, expected)`. -/
def expectM (t : TokenType) (expected : String) : EvalM Token := do
  let b ← checkM t
  if b then advanceM
  else do
    let cur ← currentM
    let ln := cur.line
    throwE (s!"Expected \x27{expected}\x27 at line {ln}")

/-- Rendering of a token `value` into an error message (JS interpolates
the raw value; the numeric rendering is approximated, which no claim
inspects). -/
def displayTokVal : TokVal → String
  | TokVal.num q => if q.den = 1 then toString q.num else toString q.num ++ "/" ++ toString q.den
  | TokVal.str s => s
  | TokVal.null => "null"

/-! ## Expression evaluation (parser.js, `expression` … `functionCall`) -/

/-- The argument-list loop of `functionCall` (`while check(COMMA)`). -/
def argsLoopF (expr : EvalM Val) : Nat → List Val → EvalM (List Val)
  | 0, _ => fun _ => none
  | Nat.succ f, acc => do
    let c ← checkM TokenType.COMMA
    if c then do
      let _ ← advanceM
      let a ← expr
      argsLoopF expr f (acc ++ [a])
    else pure acc

/-- `ScriptParser.functionCall(name)`. -/
def functionCallF (oracle : String → List Val → Val) (expr : EvalM Val)
    (fuel : Nat) (name : String) : EvalM Val := do
  let _ ← expectM TokenType.LPAREN "("
  let r ← checkM TokenType.RPAREN
  let args ←
    if r then pure ([] : List Val)
    else do
      let a ← expr
      argsLoopF expr fuel [a]
  let _ ← expectM TokenType.RPAREN ")"
  match applyBuiltin oracle (lowerStr name) args with
  | some v => pure v
  | none => throwE (s!"Unknown function \x27{name}\x27")

/-- `ScriptParser.primary`. -/
def primaryF (oracle : String → List Val → Val) (expr : EvalM Val)
    (fuel : Nat) : EvalM Val := do
  let tok ← currentM
  match tok.type with
  | TokenType.NUMBER => do
    let _ ← advanceM
    match tok.value with
    | TokVal.num q => pure (Val.num q)
    | _ => pure Val.nan  -- NUMBER tokens always carry a number
  | TokenType.LPAREN => do
    let _ ← advanceM
    let v ← expr
    let _ ← expectM TokenType.RPAREN ")"
    pure v
  | TokenType.NAME => do
    let _ ← advanceM
    let isCall ← checkM TokenType.LPAREN
    let name := displayTokVal tok.value
    if isCall then functionCallF oracle expr fuel name
    else do
      let es ← getES
      match lookupVar es.variables name with
      | some v => pure v
      | none =>
        if isConstName (lowerStr name) then pure (Val.num (constVal (lowerStr name)))
        else
          let ln := tok.line
          throwE (s!"Undefined variable \x27{name}\x27 at line {ln}")
  | _ =>
    let v := displayTokVal tok.value
    let ln := tok.line
    throwE (s!"Unexpected token \x27{v}\x27 at line {ln}")

/-- `ScriptParser.unary` (`-x` chains). -/
def unaryF (primary : EvalM Val) : Nat → EvalM Val
  | 0 => fun _ => none
  | Nat.succ f => do
    let m ← matchOperatorM "-"
    if m then do
      let v ← unaryF primary f
      pure (negV v)
    else primary

/-- The `while` loop of `ScriptParser.factor` (`* / %`; division by a
strict-equal-zero right operand throws). -/
def factorLoopF (una : EvalM Val) : Nat → Val → EvalM Val
  | 0, _ => fun _ => none
  | Nat.succ f, left => do
    let m1 ← matchOperatorM "*"
    if m1 then do
      let right ← una
      factorLoopF una f (mulV left right)
    else do
      let m2 ← matchOperatorM "/"
      if m2 then do
        let right ← una
        if strictEqV right (Val.num 0) then throwE "Division by zero"
        else factorLoopF una f (jsDiv left right)
      else do
        let m3 ← matchOperatorM "%"
        if m3 then do
          let right ← una
          factorLoopF una f (jsMod left right)
        else pure left

/-- The `while` loop of `ScriptParser.term` (`+ -`). -/
def termLoopF (fac : EvalM Val) : Nat → Val → EvalM Val
  | 0, _ => fun _ => none
  | Nat.succ f, left => do
    let m1 ← matchOperatorM "+"
    if m1 then do
      let right ← fac
      termLoopF fac f (addV left right)
    else do
      let m2 ← matchOperatorM "-"
      if m2 then do
        let right ← fac
        termLoopF fac f (subV left right)
      else pure left

/-- The `while` loop of `ScriptParser.comparison` (`< > <= >=`, tried in
that source order; the boolean result is `1` or `0`). -/
def cmpLoopF (ter : EvalM Val) : Nat → Val → EvalM Val
  | 0, _ => fun _ => none
  | Nat.succ f, left => do
    let m1 ← matchOperatorM "<"
    if m1 then do
      let right ← ter
      cmpLoopF ter f (boolVal (ltV left right))
    else do
      let m2 ← matchOperatorM ">"
      if m2 then do
        let right ← ter
        cmpLoopF ter f (boolVal (gtV left right))
      else do
        let m3 ← matchOperatorM "<="
        if m3 then do
          let right ← ter
          cmpLoopF ter f (boolVal (leV left right))
        else do
          let m4 ← matchOperatorM ">="
          if m4 then do
            let right ← ter
            cmpLoopF ter f (boolVal (geV left right))
          else pure left

/-- The `while` loop of `ScriptParser.equality` (`== !=` via `===`). -/
def eqLoopF (cmp : EvalM Val) : Nat → Val → EvalM Val
  | 0, _ => fun _ => none
  | Nat.succ f, left => do
    let m1 ← matchOperatorM "=="
    if m1 then do
      let right ← cmp
      eqLoopF cmp f (boolVal (strictEqV left right))
    else do
      let m2 ← matchOperatorM "!="
      if m2 then do
        let right ← cmp
        eqLoopF cmp f (boolVal (!strictEqV left right))
      else pure left

/-- The `while` loop of `ScriptParser.and`: both operands are always
evaluated (`right` is parsed and evaluated before the combination). -/
def andLoopF (eq : EvalM Val) : Nat → Val → EvalM Val
  | 0, _ => fun _ => none
  | Nat.succ f, left => do
    let m ← matchOperatorM "&&"
    if m then do
      let right ← eq
      andLoopF eq f (andCombine left right)
    else pure left

/-- The `while` loop of `ScriptParser.or`: both operands are always
evaluated. -/
def orLoopF (an : EvalM Val) : Nat → Val → EvalM Val
  | 0, _ => fun _ => none
  | Nat.succ f, left => do
    let m ← matchOperatorM "||"
    if m then do
      let right ← an
      orLoopF an f (orCombine left right)
    else pure left

/-- `ScriptParser.expression`: the precedence tower
`primary → unary → factor → term → comparison → equality → and → or`,
tied through the fuel for the `primary → expression` back edges. -/
def exprF (oracle : String → List Val → Val) : Nat → EvalM Val
  | 0 => fun _ => none
  | Nat.succ f =>
    let prim := primaryF oracle (exprF oracle f) f
    let una := unaryF prim f
    let fac : EvalM Val := do
      let l ← una
      factorLoopF una f l
    let ter : EvalM Val := do
      let l ← fac
      termLoopF fac f l
    let cmp : EvalM Val := do
      let l ← ter
      cmpLoopF ter f l
    let eq : EvalM Val := do
      let l ← cmp
      eqLoopF cmp f l
    let an : EvalM Val := do
      let l ← eq
      andLoopF eq f l
    do
      let l ← an
      orLoopF an f l

/-! ## Statements (parser.js, `statement` … `skipBlock`) -/

/-- The depth bookkeeping of one `skipBlock` iteration:
`if check(LBRACE) depth++; if check(RBRACE) depth--`. -/
def skipDepthStep (t : TokenType) (depth : Nat) : Nat :=
  let d1 := if t == TokenType.LBRACE then depth + 1 else depth
  if t == TokenType.RBRACE then d1 - 1 else d1

/-- `ScriptParser.skipBlock`: brace-depth counting over raw tokens, no
evaluation of anything inside.  Written with explicit state passing (each
iteration only ever moves `pos`). -/
def skipBlockF : Nat → Nat → EvalM Unit
  | 0, _ => fun _ => none
  | Nat.succ f, depth => fun es =>
    if depth = 0 then some (Except.ok (), es)
    else
      let cur := es.tokens.getD es.pos eofTok
      if cur.type == TokenType.EOF then some (Except.ok (), es)
      else
        let d2 := skipDepthStep cur.type depth
        if 0 < d2 then skipBlockF f d2 { es with pos := es.pos + 1 }
        else some (Except.ok (), es)

/-- `ScriptParser.assignment`: note the source evaluates the right-hand
side and consumes `;` before the constant-shadowing check, and the error
carries the line of the semicolon (`this.previous().line`). -/
def assignmentF (oracle : String → List Val → Val) (fuel : Nat) : EvalM Unit := do
  let tok ← currentM
  let name := displayTokVal tok.value
  let _ ← advanceM
  let _ ← expectM TokenType.ASSIGN "="
  let value ← exprF oracle fuel
  let semi ← expectM TokenType.SEMICOLON ";"
  if isConstName (lowerStr name) then
    let ln := semi.line
    throwE (s!"Cannot reassign constant \x27{name}\x27 at line {ln}")
  else setVarM name value

/-- `check(KEYWORD) && current().value === 'else'`. -/
def checkElseM : EvalM Bool := do
  let b ← checkM TokenType.KEYWORD
  if b then do
    let t ← currentM
    pure (t.value == TokVal.str "else")
  else pure false

/-- The `while (!check(RBRACE) && !isAtEnd()) statement()` block loop. -/
def execBlockF (stmt : EvalM Unit) : Nat → EvalM Unit
  | 0 => fun _ => none
  | Nat.succ f => do
    let r ← checkM TokenType.RBRACE
    if r then pure ()
    else do
      let e ← isAtEndM
      if e then pure ()
      else do
        stmt
        execBlockF stmt f

/-- `ScriptParser.ifStatement`: exactly one branch executes; the other is
skipped by `skipBlock` without evaluation. -/
def ifStatementF (oracle : String → List Val → Val) (stmt : EvalM Unit)
    (fuel : Nat) : EvalM Unit := do
  let _ ← advanceM  -- consume 'if'
  let _ ← expectM TokenType.LPAREN "("
  let condition ← exprF oracle fuel
  let _ ← expectM TokenType.RPAREN ")"
  let _ ← expectM TokenType.LBRACE "\x7b"
  if jsGtZero condition then do
    execBlockF stmt fuel
    let _ ← expectM TokenType.RBRACE "\x7d"
    let hasElse ← checkElseM
    if hasElse then do
      let _ ← advanceM
      let _ ← expectM TokenType.LBRACE "\x7b"
      skipBlockF fuel 1
      let _ ← expectM TokenType.RBRACE "\x7d"
      pure ()
    else pure ()
  else do
    skipBlockF fuel 1
    let _ ← expectM TokenType.RBRACE "\x7d"
    let hasElse ← checkElseM
    if hasElse then do
      let _ ← advanceM
      let _ ← expectM TokenType.LBRACE "\x7b"
      execBlockF stmt fuel
      let _ ← expectM TokenType.RBRACE "\x7d"
      pure ()
    else pure ()

/-- `ScriptParser.statement`. -/
def stmtF (oracle : String → List Val → Val) : Nat → EvalM Unit
  | 0 => fun _ => none
  | Nat.succ f => do
    let tok ← currentM
    if tok.type == TokenType.KEYWORD && tok.value == TokVal.str "if" then
      ifStatementF oracle (stmtF oracle f) f
    else if tok.type == TokenType.NAME then assignmentF oracle f
    else if tok.type == TokenType.RBRACE || tok.type == TokenType.EOF then pure ()
    else
      let v := displayTokVal tok.value
      let ln := tok.line
      throwE (s!"Unexpected token \x27{v}\x27 at line {ln}")

/-- The top-level `while (!isAtEnd()) statement()` loop of `parse`. -/
def topLoopF (stmt : EvalM Unit) : Nat → EvalM Unit
  | 0 => fun _ => none
  | Nat.succ f => do
    let e ← isAtEndM
    if e then pure ()
    else do
      stmt
      topLoopF stmt f

/-! ## Preprocessor (parser.js, `processPreprocessor` / `handlePreprocessor`)

The two directive regexes are matched at whitespace-separated word level,
which coincides with the regex semantics because every capture in them is
whitespace-delimited (`\s+` on both sides of each literal and `(\w+)`,
and `(\S+)` is exactly a word).  The literal `#define_param` /
`#define_var` may be preceded by arbitrary characters inside a word (the
regex is unanchored), so the scan looks for a word with that
case-insensitive suffix; the regex's greedy optional `(?:from\s+)?` with
backtracking becomes: try the `from` shape first, else the plain shape. -/

/-- Case-insensitive string equality (ASCII, as the `/i` flag here). -/
def strEqCI (a b : String) : Bool := lowerStr a == lowerStr b

/-- Case-insensitive suffix test. -/
def suffixCI (w pat : String) : Bool :=
  let wl := (lowerStr w).toList
  let pl := (lowerStr pat).toList
  decide (pl.length ≤ wl.length) && (wl.drop (wl.length - pl.length) == pl)

/-- `\w+`: a non-empty all-word-character string. -/
def isWordStr (w : String) : Bool :=
  decide (0 < w.length) && w.toList.all isAlphaNumericC

/-- Split on runs of whitespace. -/
def splitWsAux : List Char → List Char → List String
  | [], acc => if acc.isEmpty then [] else [String.mk acc.reverse]
  | c :: rest, acc =>
    if isJsSpace c then
      if acc.isEmpty then splitWsAux rest []
      else String.mk acc.reverse :: splitWsAux rest []
    else splitWsAux rest (c :: acc)

/-- Split a string into its whitespace-separated words. -/
def splitWs (s : String) : List String := splitWsAux s.toList []

/-- The optional `(?:\s+default\s+(\S+))?` tail. -/
def defOf : List String → Option String
  | d :: v :: _ => if strEqCI d "default" then some v else none
  | _ => none

/-- Continue a `#define_param` match after the `range` keyword: the greedy
`(?:from\s+)?` shape first, then the backtracked plain shape. -/
def matchRangeTail (name : String) (rest2 : List String) :
    Option (String × String × String × Option String) :=
  match rest2 with
  | f :: mn :: t :: mx :: rest3 =>
    if strEqCI f "from" && strEqCI t "to" then some (name, mn, mx, defOf rest3)
    else
      match rest2 with
      | mn' :: t' :: mx' :: rest3' =>
        if strEqCI t' "to" then some (name, mn', mx', defOf rest3')
        else none
      | _ => none
  | mn' :: t' :: mx' :: rest3' =>
    if strEqCI t' "to" then some (name, mn', mx', defOf rest3')
    else none
  | _ => none

/-- Scan for the `#define_param` regex: a word ending in the literal,
then `(\w+)`, the literal `range`, and the range tail; on failure, later
occurrences of the literal are tried (regex start-offset scan). -/
def matchDefineParamWs : List String → Option (String × String × String × Option String)
  | [] => none
  | w :: rest =>
    let here :=
      if suffixCI w "#define_param" then
        match rest with
        | name :: kw :: rest2 =>
          if isWordStr name && strEqCI kw "range" then matchRangeTail name rest2
          else none
        | _ => none
      else none
    match here with
    | some r => some r
    | none => matchDefineParamWs rest

/-- Scan for the `#define_var` regex: a word ending in the literal, then
`(\w+)`, then `(\S+)`. -/
def matchDefineVarWs : List String → Option (String × String)
  | [] => none
  | w :: rest =>
    let here :=
      if suffixCI w "#define_var" then
        match rest with
        | name :: v :: _ => if isWordStr name then some (name, v) else none
        | _ => none
      else none
    match here with
    | some r => some r
    | none => matchDefineVarWs rest

/-- `ScriptParser.handlePreprocessor(directive)`: `#define_param` is
tried first; its descriptor's default value is `parseFloat(min)` when the
default clause is absent, and the variable is seeded only when not
already present.  `#define_var` seeds the static store (and environment)
only when the static store has no entry.  Unmatched directives are
ignored. -/
def handlePreprocessor (directive : String) (s : ScriptParser) : ScriptParser :=
  let ws := splitWs directive
  match matchDefineParamWs ws with
  | some (name, mnS, mxS, dS) =>
    let mn := jsParseFloat mnS
    let mx := jsParseFloat mxS
    let dv := match dS with
      | some d => jsParseFloat d
      | none => mn
    let s1 := { s with params := s.params ++ [⟨name, some mn, some mx, dv, false⟩] }
    if (lookupVar s1.variables name).isSome then s1
    else { s1 with «variables» := setVar s1.variables name dv }
  | none =>
    match matchDefineVarWs ws with
    | some (name, vS) =>
      let v := jsParseFloat vS
      let s1 := { s with params := s.params ++ [⟨name, none, none, v, true⟩] }
      if (lookupVar s1.staticVariables name).isSome then s1
      else { s1 with staticVariables := setVar s1.staticVariables name v,
                     «variables» := setVar s1.variables name v }
    | none => s

/-- The token scan of `processPreprocessor`: handle directive tokens in
order, keep the rest. -/
def ppLoop : List Token → ScriptParser → (ScriptParser × List Token)
  | [], s => (s, [])
  | t :: rest, s =>
    if t.type == TokenType.PREPROCESSOR then
      ppLoop rest (handlePreprocessor (displayTokVal t.value) s)
    else
      let (s1, ts) := ppLoop rest s
      (s1, t :: ts)

/-- `ScriptParser.processPreprocessor`: clears `this.params`, handles and
removes every directive token. -/
def processPreprocessor (s : ScriptParser) : ScriptParser :=
  let s0 := { s with params := [] }
  let (s1, ts) := ppLoop s0.tokens s0
  { s1 with tokens := ts }

/-! ## `ScriptParser.parse` and the simulation layer (simulation.js) -/

/-- The context passed to `parse` (`{rate, traffic}`). -/
structure Context where
  rate : Val
  traffic : Val
deriving DecidableEq, Repr

/-- What `parse` returns, as a JS object with optional fields: the normal
path returns `{rate, errors}` (`traffic := none`), the early
lexical-error path returns the incoming context object itself, which has
`rate` and `traffic` but **no** `errors` field (`errors := none`). -/
structure ParseRet where
  rate : Val
  traffic : Option Val
  errors : Option (List String)
deriving DecidableEq, Repr

/-- The environment `parse` rebuilds: `{...context}`, then the constants
`pi` and `e`, then the carried-over static variables. -/
def baseVars (ctx : Context) (statics : List (String × Val)) : List (String × Val) :=
  statics.foldl (fun st p => setVar st p.1 p.2)
    (setVar (setVar [("rate", ctx.rate), ("traffic", ctx.traffic)] "pi" (Val.num piRat))
      "e" (Val.num eRat))

/-- The save-static-variables-back loop at the end of `parse`: every
`isStatic` parameter's current environment value is written into the
persistent static store.  (`#define_var` always seeds the environment, so
the `getD Val.nan` default for a missing entry is unreachable; JS would
store `undefined`.) -/
def writeback (params : List Param) (vars statics : List (String × Val)) :
    List (String × Val) :=
  (params.filter fun p => p.isStatic).foldl
    (fun st p => setVar st p.name ((lookupVar vars p.name).getD Val.nan)) statics

/-- `ScriptParser.parse(context)`: reset position and errors, rebuild the
environment, tokenize (an exception there records the message and returns
the context object unchanged), strip directives, run the statement loop
(an exception there records the message), write static variables back,
and return `{rate: this.variables.rate || 0, errors}`. -/
def ScriptParser.parse (oracle : String → List Val → Val) (fuel : Nat)
    (sp : ScriptParser) (ctx : Context) : Option (ParseRet × ScriptParser) :=
  let sp0 : ScriptParser :=
    { sp with pos := 0, errors := [], «variables» := baseVars ctx sp.staticVariables }
  match tokenize sp0.source with
  | none => none
  | some (Except.error msg) =>
    some ({ rate := ctx.rate, traffic := some ctx.traffic, errors := none },
          { sp0 with errors := sp0.errors ++ [msg] })
  | some (Except.ok toks) =>
    let sp1 := processPreprocessor { sp0 with tokens := toks }
    match topLoopF (stmtF oracle fuel) fuel ⟨sp1.tokens, sp1.pos, sp1.variables⟩ with
    | none => none
    | some (res, es) =>
      let sp2 : ScriptParser :=
        { sp1 with pos := es.pos, «variables» := es.variables,
                   errors := match res with
                     | Except.ok _ => sp1.errors
                     | Except.error m => sp1.errors ++ [m] }
      let sp3 := { sp2 with staticVariables := writeback sp2.params sp2.variables sp2.staticVariables }
      some ({ rate := jsOrZero (lookupVar sp3.variables "rate"), traffic := none,
              errors := some sp3.errors }, sp3)

/-- `ScriptParser.setVariable(name, value)`. -/
def ScriptParser.setVariable (p : ScriptParser) (name : String) (v : Val) : ScriptParser :=
  { p with «variables» := setVar p.variables name v }

/-- `ScriptParser.resetStaticVars`. -/
def ScriptParser.resetStaticVars (p : ScriptParser) : ScriptParser :=
  { p with staticVariables := [] }

/-- A `Sender` (simulation.js). -/
structure Sender where
  rate : Val
  parser : ScriptParser
  scriptContent : String
deriving DecidableEq, Repr

/-- `new Sender(scriptContent)`. -/
def Sender.new (script : String) : Sender :=
  ⟨Val.num 0, ScriptParser.new script, script⟩

/-- `Sender.setScript`. -/
def Sender.setScript (s : Sender) (content : String) : Sender :=
  { s with scriptContent := content, parser := ScriptParser.new content }

/-- `Math.max(0, Math.min(1, rate))`. -/
def clamp01V (v : Val) : Val := jsMax (Val.num 0) (jsMin (Val.num 1) v)

/-- `Sender.setRate`: clamp to `[0, 1]`. -/
def Sender.setRate (s : Sender) (r : Val) : Sender :=
  { s with rate := clamp01V r }

/-- `Sender.getRate`. -/
def Sender.getRate (s : Sender) : Val := s.rate

/-- What a `Sender.calculate` call does: succeed with the new rate, fail
with the error list, or — when `parse` returned an object with no
`errors` field (the lexical-error path) — throw a `TypeError` on
`result.errors.length`, which escapes `calculate`. -/
inductive CalcOutcome where
  | ok (rate : Val)
  | fail (errors : List String)
  | crash (msg : String)
deriving DecidableEq, Repr

/-- `Sender.calculate(traffic, params)`: push the slider parameters via
`setVariable` (note `parse` then rebuilds `this.variables`, wiping them),
parse with `{rate: this.rate, traffic}`, and on success clamp and store
the returned rate; on failure leave the rate untouched. -/
def Sender.calculate (oracle : String → List Val → Val) (fuel : Nat)
    (sn : Sender) (traffic : Val) (params : List (String × Val)) :
    Option (CalcOutcome × Sender) :=
  let pr := params.foldl (fun p nv => p.setVariable nv.1 nv.2) sn.parser
  match pr.parse oracle fuel { rate := sn.rate, traffic := traffic } with
  | none => none
  | some (ret, pr1) =>
    let sn1 := { sn with parser := pr1 }
    match ret.errors with
    | none =>
      some (CalcOutcome.crash "TypeError: Cannot read properties of undefined (reading \x27length\x27)", sn1)
    | some errs =>
      if 0 < errs.length then some (CalcOutcome.fail errs, sn1)
      else
        let sn2 := { sn1 with rate := clamp01V ret.rate }
        some (CalcOutcome.ok sn2.rate, sn2)

/-- `Sender.getParams()`: a throwaway parse with `rate = 0, traffic = 0`,
then read the catalog off the parser. -/
def Sender.getParams (oracle : String → List Val → Val) (fuel : Nat)
    (sn : Sender) : Option (List Param × Sender) :=
  match sn.parser.parse oracle fuel { rate := Val.num 0, traffic := Val.num 0 } with
  | none => none
  | some (_, pr1) => some (pr1.params, { sn with parser := pr1 })

/-- `Sender.resetStaticVars`. -/
def Sender.resetStaticVars (sn : Sender) : Sender :=
  { sn with parser := sn.parser.resetStaticVars }

/-- One trajectory record.  The initial record (`step 0`) has only `x`,
`y` and `step`; per-step records carry all fields. -/
structure StepRec where
  step : Nat
  x : Val
  y : Val
  oldX : Option Val
  oldY : Option Val
  traffic : Option Val
  distance : Option Val
  progress : Option Val
deriving DecidableEq, Repr

/-- The `SimulationEngine` state.  The `senders` array is created with
exactly two entries and never resized, so it is a pair; likewise `rtt`.
The callbacks, `animationDelay` and the async `sleep` are presentation
concerns outside the synchronous model. -/
structure SimulationEngine where
  senders : Sender × Sender
  duration : Nat
  rtt : Nat × Nat
  isRunning : Bool
  currentStep : Nat
  trajectory : List StepRec
deriving DecidableEq, Repr

/-- `new SimulationEngine()`. -/
def SimulationEngine.new : SimulationEngine :=
  ⟨(Sender.new "", Sender.new ""), 50, (1, 1), false, 0, []⟩

/-- `setStartPosition(x, y)`. -/
def SimulationEngine.setStartPosition (eng : SimulationEngine) (x y : Val) :
    SimulationEngine :=
  { eng with senders := (eng.senders.1.setRate x, eng.senders.2.setRate y) }

/-- `Math.sqrt` via the oracle (the `sqrt` built-in is the same
function). -/
def jsSqrtO (oracle : String → List Val → Val) (a : Val) : Val := oracle "sqrt" [a]

/-- `Math.pow` via the oracle (the `pow` built-in is the same function). -/
def jsPowO (oracle : String → List Val → Val) (a b : Val) : Val := oracle "pow" [a, b]

/-- The per-sender body of the engine's step loop: invoke `calculate`
only when `step % rtt = 0`.  Returns the (possibly updated) sender, the
errors this sender contributed, and whether `calculate` was invoked; a
`crash` from `calculate` propagates as a thrown error. -/
def runSenderStep (oracle : String → List Val → Val) (fuel : Nat) (step r : Nat)
    (sn : Sender) (traffic : Val) (ps : List (String × Val)) :
    Option (Except String (Sender × List String × Bool)) :=
  if step % r = 0 then
    match sn.calculate oracle fuel traffic ps with
    | none => none
    | some (CalcOutcome.crash m, _) => some (Except.error m)
    | some (CalcOutcome.ok _, sn1) => some (Except.ok (sn1, [], true))
    | some (CalcOutcome.fail errs, sn1) => some (Except.ok (sn1, errs, true))
  else some (Except.ok (sn, [], false))

/-- The list of step indices `s, s + 1, …, s + n - 1` (the
`for (step = 1; step <= duration; step++)` loop counter). -/
def stepsFrom : Nat → Nat → List Nat
  | _, 0 => []
  | s, Nat.succ n => s :: stepsFrom (s + 1) n

/-- The engine's step loop: `traffic` is the sum of the *previous* rates,
both senders are stepped (RTT-gated), the full step record is appended,
and `currentStep` follows the loop counter.  Per-step errors go to the
`onError` callback in JS and are not engine state; the ghost `log`
accumulates which `(step, senderIndex)` pairs invoked `calculate`. -/
def runLoop (oracle : String → List Val → Val) (fuel : Nat)
    (p0 p1 : List (String × Val)) (rtt : Nat × Nat) (duration : Nat) :
    List Nat → (Sender × Sender) → List StepRec → List (Nat × Nat) → Nat →
    Option (Except String ((Sender × Sender) × List StepRec × List (Nat × Nat) × Nat))
  | [], sns, traj, log, cur => some (Except.ok (sns, traj, log, cur))
  | step :: rest, (s0, s1), traj, log, _cur =>
    let old0 := s0.getRate
    let old1 := s1.getRate
    let traffic := addV old0 old1
    match runSenderStep oracle fuel step rtt.1 s0 traffic p0 with
    | none => none
    | some (Except.error m) => some (Except.error m)
    | some (Except.ok (s0', _, i0)) =>
      match runSenderStep oracle fuel step rtt.2 s1 traffic p1 with
      | none => none
      | some (Except.error m) => some (Except.error m)
      | some (Except.ok (s1', _, i1)) =>
        let newX := s0'.getRate
        let newY := s1'.getRate
        let dist := jsSqrtO oracle
          (addV (jsPowO oracle (subV (Val.num (1 / 2)) newX) (Val.num 2))
                (jsPowO oracle (subV (Val.num (1 / 2)) newY) (Val.num 2)))
        let rec1 : StepRec :=
          { step := step, x := newX, y := newY, oldX := some old0, oldY := some old1,
            traffic := some (addV newX newY), distance := some dist,
            progress := some (Val.num ((step : ℚ) / (duration : ℚ))) }
        let log1 := log ++ (if i0 then [(step, 0)] else []) ++ (if i1 then [(step, 1)] else [])
        runLoop oracle fuel p0 p1 rtt duration rest (s0', s1') (traj ++ [rec1]) log1 step

/-- `SimulationEngine.run(params)`: a no-op when already running;
otherwise reset both senders' static stores, record the initial position
as step 0, and run the loop for `step = 1 … duration`.  Returns the
finished engine plus the ghost invocation log; a `TypeError` escaping a
`calculate` call aborts the run as `Except.error`. -/
def SimulationEngine.run (oracle : String → List Val → Val) (fuel : Nat)
    (eng : SimulationEngine) (p0 p1 : List (String × Val)) :
    Option (Except String (SimulationEngine × List (Nat × Nat))) :=
  if eng.isRunning then some (Except.ok (eng, []))
  else
    let s0 := eng.senders.1.resetStaticVars
    let s1 := eng.senders.2.resetStaticVars
    let init : StepRec :=
      { step := 0, x := s0.getRate, y := s1.getRate, oldX := none, oldY := none,
        traffic := none, distance := none, progress := none }
    match runLoop oracle fuel p0 p1 eng.rtt eng.duration (stepsFrom 1 eng.duration)
        (s0, s1) [init] [] 0 with
    | none => none
    | some (Except.error m) => some (Except.error m)
    | some (Except.ok (sns, traj, log, cur)) =>
      let eng1 : SimulationEngine :=
        { eng with senders := sns, trajectory := traj, currentStep := cur, isRunning := false }
      some (Except.ok (eng1, log))

/-! ## Support definitions for the claims -/

/-- A concrete oracle for witnesses (its values never matter to a claim). -/
def oracle0 : String → List Val → Val := fun _ _ => Val.nan

/-- Decidable `[0, 1]` membership for a `Val` (false on NaN). -/
def inUnitRangeB : Val → Bool
  | Val.num q => decide (0 ≤ q) && decide (q ≤ 1)
  | Val.nan => false

/-- Is a `calculate` outcome the escaped `TypeError`? -/
def isCrashB : CalcOutcome → Bool
  | CalcOutcome.crash _ => true
  | _ => false

/-- Outcome projection of a `calculate` result. -/
def outcomeOf (r : Option (CalcOutcome × Sender)) : Option CalcOutcome :=
  r.map Prod.fst

/-- Sender projection of a `calculate` result. -/
def senderOf (r : Option (CalcOutcome × Sender)) : Option Sender :=
  r.map Prod.snd

/-- Extract the engine/log pair of a completed `run`. -/
def runOkOf (r : Option (Except String (SimulationEngine × List (Nat × Nat)))) :
    SimulationEngine × List (Nat × Nat) :=
  match r with
  | some (Except.ok p) => p
  | _ => (SimulationEngine.new, [])

/-- C1 witness data: a script that computes `rate = 5` (clamped to 1). -/
def c1start : Sender := Sender.new "rate = 5;"

/-- The C1 calculate call. -/
def c1calc : Option (CalcOutcome × Sender) :=
  Sender.calculate oracle0 100 c1start (Val.num 0) []

/-- The sender after the C1 call. -/
def c1resS : Sender := (senderOf c1calc).getD (Sender.new "")

/-- C2 data: a static counter script. -/
def c2start : Sender := Sender.new "#define_var c 0\nc = c + 1;\nrate = c;"

/-- Sender after one `calculate` (static `c = 1`). -/
def c2afterCalc : Sender :=
  (senderOf (Sender.calculate oracle0 100 c2start (Val.num 0) [])).getD c2start

/-- The parameter catalog `getParams` returns on it. -/
def c2psList : List Param :=
  ((Sender.getParams oracle0 100 c2afterCalc).map Prod.fst).getD []

/-- Sender after that `getParams` call. -/
def c2afterGet : Sender :=
  ((Sender.getParams oracle0 100 c2afterCalc).map Prod.snd).getD c2afterCalc

/-- C3 data: a source whose only character is lexically invalid. -/
def c3sender : Sender := ⟨Val.num (1 / 2), ScriptParser.new "@", "@"⟩

/-- The raw parse of it. -/
def c3parse : Option (ParseRet × ScriptParser) :=
  ScriptParser.parse oracle0 100 (ScriptParser.new "@") ⟨Val.num (1 / 2), Val.num 0⟩

/-- The calculate call on it. -/
def c3calc : Option (CalcOutcome × Sender) :=
  Sender.calculate oracle0 100 c3sender (Val.num 0) []

/-- C4 data: modulo by zero. -/
def c4modCalc : Option (CalcOutcome × Sender) :=
  Sender.calculate oracle0 100 (Sender.new "rate = 5 % 0;") (Val.num 0) []

/-- The sender after the modulo-by-zero run. -/
def c4modS : Sender := (senderOf c4modCalc).getD (Sender.new "")

/-- C4 data: division by zero. -/
def c4divCalc : Option (CalcOutcome × Sender) :=
  Sender.calculate oracle0 100 (Sender.new "rate = 5 / 0;") (Val.num 0) []

/-- C5 witness data: a division-by-zero script. -/
def c5start : Sender := Sender.new "rate = 1 / 0;"

/-- The failing calculate call. -/
def c5calc : Option (CalcOutcome × Sender) :=
  Sender.calculate oracle0 100 c5start (Val.num 0) []

/-- The sender after the failing call. -/
def c5resS : Sender := (senderOf c5calc).getD (Sender.new "")

/-- C6 witness data: duration 2, RTT divisors (1, 2), empty scripts. -/
def c6engW : SimulationEngine :=
  { SimulationEngine.new with duration := 2, rtt := (1, 2) }

/-- The completed run. -/
def c6runRes : Option (Except String (SimulationEngine × List (Nat × Nat))) :=
  SimulationEngine.run oracle0 100 c6engW [] []

/-- The finished engine of the witness run. -/
def c6outEng : SimulationEngine := (runOkOf c6runRes).1

/-- The invocation log of the witness run. -/
def c6outLog : List (Nat × Nat) := (runOkOf c6runRes).2

/-- C7 witness data for the skip lemma: tokens `x } EOF`, skip stops at
the brace without touching the environment. -/
def c7skipEs : ExecState :=
  ⟨[⟨TokenType.NAME, TokVal.str "x", 1⟩, ⟨TokenType.RBRACE, TokVal.str "\x7d", 1⟩,
    ⟨TokenType.EOF, TokVal.null, 1⟩], 0, [("v", Val.num 3)]⟩

/-- The state after skipping. -/
def c7skipEs' : ExecState := { c7skipEs with pos := 1 }

/-- C7 concrete branch-exclusivity script. -/
def c7plainCalc : Option (CalcOutcome × Sender) :=
  Sender.calculate oracle0 100 (Sender.new "if(traffic>1){rate=0;}else{rate=1;}")
    (Val.num (3 / 2)) []

/-- C7 script whose else branch has a static side effect. -/
def c7statCalc : Option (CalcOutcome × Sender) :=
  Sender.calculate oracle0 100
    (Sender.new "#define_var w 0\nif(traffic>1){rate=0;}else{rate=1;w=5;}")
    (Val.num (3 / 2)) []

/-- The sender after the static-side-effect run. -/
def c7statS : Sender := (senderOf c7statCalc).getD (Sender.new "")

/-- C8 data: `&&` with a deciding left operand and an erroring right. -/
def c8andCalc : Option (CalcOutcome × Sender) :=
  Sender.calculate oracle0 100 (Sender.new "rate = 0 && x;") (Val.num 0) []

/-- C8 data: `||` with a deciding left operand and an erroring right. -/
def c8orCalc : Option (CalcOutcome × Sender) :=
  Sender.calculate oracle0 100 (Sender.new "rate = 1 || x;") (Val.num 0) []

/-- C9 witness directive (no default clause). -/
def c9dirP : String := "#define_param alpha range 0 to 1"

/-- C9 witness directive for the static form. -/
def c9dirV : String := "#define_var c 7"

/-- C9 persistence data: a static counter without rate use. -/
def c9start : Sender := Sender.new "#define_var c 0\nc = c + 1;"

/-- After the first calculate (static `c = 1`). -/
def c9s1 : Sender :=
  (senderOf (Sender.calculate oracle0 100 c9start (Val.num 0) [])).getD c9start

/-- After the second calculate (static `c = 2`: the value survived). -/
def c9s2 : Sender :=
  (senderOf (Sender.calculate oracle0 100 c9s1 (Val.num 0) [])).getD c9s1

/-- C10 data: a static update before an undefined-variable error. -/
def c10start : Sender := Sender.new "#define_var c 0\nc = c + 1;\nrate = x;"

/-- The first (failing) calculate call. -/
def c10calc1 : Option (CalcOutcome × Sender) :=
  Sender.calculate oracle0 100 c10start (Val.num 0) []

/-- Sender after the first failure. -/
def c10s1 : Sender := (senderOf c10calc1).getD c10start

/-- The second (failing) calculate call: the static carried over. -/
def c10calc2 : Option (CalcOutcome × Sender) :=
  Sender.calculate oracle0 100 c10s1 (Val.num 0) []

/-- Sender after the second failure. -/
def c10s2 : Sender := (senderOf c10calc2).getD c10s1

/-- C10 witness data at the `parse` level. -/
def c10pr : ScriptParser := c10start.parser

/-- The raw parse result. -/
def c10pres : Option (ParseRet × ScriptParser) :=
  ScriptParser.parse oracle0 100 c10pr ⟨Val.num 0, Val.num 0⟩

/-- Its returned object. -/
def c10ret : ParseRet := (c10pres.map Prod.fst).getD ⟨Val.num 0, none, none⟩

/-- Its final parser state. -/
def c10spOut : ScriptParser := (c10pres.map Prod.snd).getD (ScriptParser.new "")

/-! ## Shared lemmas -/

/-- `setVar` / `lookupVar` interaction. -/
theorem lookupVar_setVar (st : List (String × Val)) (n : String) (v : Val) (m : String) :
    lookupVar (setVar st n v) m = if m = n then some v else lookupVar st m := by
  induction st with
  | nil =>
    by_cases h : m = n
    · subst h; simp [setVar, lookupVar]
    · have h2 : ¬ n = m := fun hh => h hh.symm
      simp [setVar, lookupVar, h, h2]
  | cons hd tl ih =>
    obtain ⟨k, w⟩ := hd
    by_cases hk : k = n
    · subst hk
      by_cases hm : m = k
      · subst hm; simp [setVar, lookupVar]
      · have h2 : ¬ k = m := fun hh => hm hh.symm
        simp [setVar, lookupVar, h2, hm]
    · by_cases hm : k = m
      · subst hm
        have h2 : ¬ k = n := hk
        have h3 : ¬ n = k := fun hh => hk hh.symm
        simp [setVar, lookupVar, hk, h2, h3]
      · simp [setVar, lookupVar, hk, hm, ih]

/-- `jsOrZero` always yields a plain number. -/
theorem jsOrZero_num (o : Option Val) : ∃ q : ℚ, jsOrZero o = Val.num q := by
  cases o with
  | none => exact ⟨0, rfl⟩
  | some v =>
    cases v with
    | num q => exact ⟨q, rfl⟩
    | nan => exact ⟨0, rfl⟩

/-- Clamping a plain number lands in `[0, 1]`. -/
theorem inUnitRangeB_clamp (q : ℚ) : inUnitRangeB (clamp01V (Val.num q)) = true := by
  have h1 : (0 : ℚ) ≤ maxRat 0 (minRat 1 q) := by
    unfold maxRat minRat
    split_ifs <;> linarith
  have h2 : maxRat 0 (minRat 1 q) ≤ 1 := by
    unfold maxRat minRat
    split_ifs <;> linarith
  simp [clamp01V, jsMin, jsMax, inUnitRangeB, h1, h2]

/-- `handlePreprocessor` never touches `errors`, `pos`, `tokens` or
`source`. -/
theorem handlePreprocessor_frame (d : String) (s : ScriptParser) :
    (handlePreprocessor d s).errors = s.errors ∧
    (handlePreprocessor d s).pos = s.pos ∧
    (handlePreprocessor d s).source = s.source ∧
    (handlePreprocessor d s).tokens = s.tokens := by
  unfold handlePreprocessor
  cases hp : matchDefineParamWs (splitWs d) with
  | some r =>
    obtain ⟨name, mnS, mxS, dS⟩ := r
    simp only [hp]
    split <;> simp
  | none =>
    simp only [hp]
    cases hv : matchDefineVarWs (splitWs d) with
    | some r =>
      obtain ⟨name, vS⟩ := r
      simp only [hv]
      split <;> simp
    | none => simp [hv]

/-- `ppLoop` never touches `errors`. -/
theorem ppLoop_errors (ts : List Token) :
    ∀ s : ScriptParser, (ppLoop ts s).1.errors = s.errors := by
  induction ts with
  | nil => intro s; simp [ppLoop]
  | cons t rest ih =>
    intro s
    by_cases ht : t.type == TokenType.PREPROCESSOR
    · simp only [ppLoop, ht, if_pos]
      rw [ih]
      exact (handlePreprocessor_frame (displayTokVal t.value) s).1
    · rcases hpp : ppLoop rest s with ⟨s1, ts1⟩
      have ih2 := ih s
      rw [hpp] at ih2
      simp only [ppLoop, ht, Bool.false_eq_true, if_false, hpp]
      exact ih2

/-- `processPreprocessor` never touches `errors`. -/
theorem processPreprocessor_errors (s : ScriptParser) :
    (processPreprocessor s).errors = s.errors := by
  unfold processPreprocessor
  rw [ppLoop_errors]

/-- Unfolding `writeback` over the head parameter. -/
theorem writeback_cons (p : Param) (ps : List Param) (vars st : List (String × Val)) :
    writeback (p :: ps) vars st =
      writeback ps vars
        (if p.isStatic then setVar st p.name ((lookupVar vars p.name).getD Val.nan)
         else st) := by
  by_cases h : p.isStatic <;> simp [writeback, List.filter_cons, h]

/-- What the static write-back leaves at a name: the environment value if
some static parameter has that name, the prior store entry otherwise. -/
theorem writeback_lookup (vars : List (String × Val)) :
    ∀ (ps : List Param) (st : List (String × Val)) (name : String),
      lookupVar (writeback ps vars st) name =
        if ps.any (fun p => p.isStatic && p.name == name)
        then some ((lookupVar vars name).getD Val.nan)
        else lookupVar st name := by
  intro ps
  induction ps with
  | nil => intro st name; simp [writeback]
  | cons p ps ih =>
    intro st name
    rw [writeback_cons, ih]
    by_cases hs : p.isStatic
    · by_cases hn : p.name = name
      · by_cases ha : ps.any (fun p => p.isStatic && p.name == name)
        · simp [hs, hn, ha]
        · simp [hs, hn, ha, lookupVar_setVar]
      · have hn2 : ¬ name = p.name := fun hh => hn hh.symm
        simp [hs, hn, hn2, lookupVar_setVar]
    · simp [hs]

/-- `skipBlock` never throws and never touches tokens or the variable
environment: only `pos` moves. -/
theorem skipBlockF_frame :
    ∀ (fuel depth : Nat) (es : ExecState) (r : Except String Unit) (es' : ExecState),
      skipBlockF fuel depth es = some (r, es') →
      r = Except.ok () ∧ es'.variables = es.variables ∧ es'.tokens = es.tokens := by
  intro fuel
  induction fuel with
  | zero => intro depth es r es' h; simp [skipBlockF] at h
  | succ f ih =>
    intro depth es r es' h
    simp only [skipBlockF] at h
    split at h
    · simp only [Option.some.injEq, Prod.mk.injEq] at h
      obtain ⟨h1, h2⟩ := h
      exact ⟨h1.symm, by rw [← h2], by rw [← h2]⟩
    · split at h
      · simp only [Option.some.injEq, Prod.mk.injEq] at h
        obtain ⟨h1, h2⟩ := h
        exact ⟨h1.symm, by rw [← h2], by rw [← h2]⟩
      · split at h
        · have hr := ih _ _ _ _ h
          exact ⟨hr.1, hr.2.1, hr.2.2⟩
        · simp only [Option.some.injEq, Prod.mk.injEq] at h
          obtain ⟨h1, h2⟩ := h
          exact ⟨h1.symm, by rw [← h2], by rw [← h2]⟩

/-- The normal-return shape of `parse` (tokenization succeeded): the
returned `errors` list is the parser's, holds at most one message, the
returned rate is `variables.rate || 0`, and the final static store is the
write-back of the static parameters over the final environment. -/
theorem parse_normal (oracle : String → List Val → Val) (fuel : Nat)
    (sp : ScriptParser) (ctx : Context) (ret : ParseRet) (sp' : ScriptParser)
    (h : ScriptParser.parse oracle fuel sp ctx = some (ret, sp'))
    (errs : List String) (he : ret.errors = some errs) :
    errs = sp'.errors ∧ errs.length ≤ 1 ∧
    ret.rate = jsOrZero (lookupVar sp'.variables "rate") ∧
    ∃ st0, sp'.staticVariables = writeback sp'.params sp'.variables st0 := by
  simp only [ScriptParser.parse] at h
  split at h
  · simp at h
  · simp only [Option.some.injEq, Prod.mk.injEq] at h
    obtain ⟨h1, _⟩ := h
    rw [← h1] at he
    simp at he
  · split at h
    · simp at h
    · rename_i res es hexec
      simp only [Option.some.injEq, Prod.mk.injEq] at h
      obtain ⟨hret, hsp⟩ := h
      subst hsp
      rw [← hret] at he
      simp only [Option.some.injEq] at he
      subst he
      refine ⟨?_, ?_, ?_, ?_⟩
      · rfl
      · cases res with
        | ok u => simp [processPreprocessor_errors]
        | error m => simp [processPreprocessor_errors]
      · rw [← hret]
      · exact ⟨_, rfl⟩

/-! ## Claims -/

/-- C1: for every script and every call to `Sender.calculate` that
succeeds, the Sender's stored rate afterwards is a plain number within
`[0, 1]`, regardless of what the script body computed for `rate`; and
`setRate` (through which `setStartPosition` sets up the start position)
clamps any numeric argument into `[0, 1]`. -/
theorem c1_rate_clamp_invariant :
    (∀ (oracle : String → List Val → Val) (fuel : Nat) (sn : Sender) (traffic : Val)
       (ps : List (String × Val)) (r : Val) (sn' : Sender),
       Sender.calculate oracle fuel sn traffic ps = some (CalcOutcome.ok r, sn') →
       inUnitRangeB sn'.rate = true) ∧
    (∀ (sn : Sender) (q : ℚ), inUnitRangeB ((sn.setRate (Val.num q)).rate) = true) ∧
    (∀ (eng : SimulationEngine) (x y : ℚ),
       inUnitRangeB ((eng.setStartPosition (Val.num x) (Val.num y)).senders.1.rate) = true ∧
       inUnitRangeB ((eng.setStartPosition (Val.num x) (Val.num y)).senders.2.rate) = true) := by
  refine ⟨?_, ?_, ?_⟩
  · intro oracle fuel sn traffic ps r sn' h
    simp only [Sender.calculate] at h
    split at h
    · simp at h
    · rename_i pres ret pr1 hp
      split at h
      · simp at h
      · rename_i errs herrs
        split at h
        · simp at h
        · simp only [Option.some.injEq, Prod.mk.injEq] at h
          obtain ⟨hout, hsn⟩ := h
          have hrate := (parse_normal _ _ _ _ _ _ hp errs herrs).2.2.1
          obtain ⟨q, hq⟩ := jsOrZero_num (lookupVar pr1.variables "rate")
          rw [hq] at hrate
          rw [← hsn]
          show inUnitRangeB (clamp01V ret.rate) = true
          rw [hrate]
          exact inUnitRangeB_clamp q
  · intro sn q
    exact inUnitRangeB_clamp q
  · intro eng x y
    exact ⟨inUnitRangeB_clamp x, inUnitRangeB_clamp y⟩

/-- Witness for C1: a concrete successful run (`rate = 5;`, clamped to 1)
lands in `[0, 1]`. -/
theorem c1_rate_clamp_invariant_witness : inUnitRangeB c1resS.rate = true :=
  c1_rate_clamp_invariant.1 oracle0 100 c1start (Val.num 0) [] (Val.num 1) c1resS (by decide!)

/-- C2 (amended): `getParams()` leaves the Sender's current rate (and
script) unchanged — but not, in general, the static store. -/
theorem c2_getparams_preserves_rate :
    ∀ (oracle : String → List Val → Val) (fuel : Nat) (sn : Sender)
      (ps : List Param) (sn' : Sender),
      Sender.getParams oracle fuel sn = some (ps, sn') →
      sn'.rate = sn.rate ∧ sn'.scriptContent = sn.scriptContent := by
  intro oracle fuel sn ps sn' h
  simp only [Sender.getParams] at h
  split at h
  · simp at h
  · simp only [Option.some.injEq, Prod.mk.injEq] at h
    obtain ⟨_, hsn⟩ := h
    rw [← hsn]
    exact ⟨rfl, rfl⟩

/-- C2 counterexample: on a static-counter script, one `calculate` leaves
static `c = 1`; the following `getParams()` runs the script again and
write-back bumps the persistent store to `c = 2` — the static store is
not left unchanged. -/
theorem c2_getparams_counterexample :
    lookupVar c2afterCalc.parser.staticVariables "c" = some (Val.num 1) ∧
    lookupVar c2afterGet.parser.staticVariables "c" = some (Val.num 2) ∧
    c2afterGet.parser.staticVariables ≠ c2afterCalc.parser.staticVariables := by decide!

/-- Witness for the amended C2: the same concrete `getParams` call does
leave the rate and script unchanged. -/
theorem c2_getparams_preserves_rate_witness :
    c2afterGet.rate = c2afterCalc.rate ∧
    c2afterGet.scriptContent = c2afterCalc.scriptContent :=
  c2_getparams_preserves_rate oracle0 100 c2afterCalc c2psList c2afterGet (by decide!)

/-- C3 (code bug, evaluated at the failing input `"@"`): on a lexical
error `parse` returns the incoming context object — `rate` unchanged and
`traffic` present but **no** `errors` field — while the message sits only
in `this.errors`; `Sender.calculate` then throws a `TypeError` reading
`result.errors.length` instead of surfacing the error list. -/
theorem c3_lexical_error_returns_bare_context :
    c3parse.map (fun r => r.1.errors) = some none ∧
    c3parse.map (fun r => r.1.rate) = some (Val.num (1 / 2)) ∧
    c3parse.map (fun r => r.1.traffic) = some (some (Val.num 0)) ∧
    c3parse.map (fun r => r.2.errors) = some ["Unexpected character \x27@\x27 at line 1"] ∧
    c3calc.map (fun r => isCrashB r.1) = some true := by decide!

/-- C4 counterexample: `rate = 5 % 0;` is **not** a runtime error — the
calculate call succeeds (NaN collapses to `0` via `rate || 0`) and no
error is recorded, unlike the claimed division-like behavior. -/
theorem c4_modulo_zero_counterexample :
    outcomeOf c4modCalc = some (CalcOutcome.ok (Val.num 0)) ∧
    c4modS.parser.errors = [] := by decide!

/-- C4 (amended): `a % 0` evaluates to NaN and execution continues with no
error recorded, while `a / 0` is a runtime error that stops execution at
that statement. -/
theorem c4_modulo_zero_amended :
    (∀ v : Val, jsMod v (Val.num 0) = Val.nan) ∧
    outcomeOf c4modCalc = some (CalcOutcome.ok (Val.num 0)) ∧
    outcomeOf c4divCalc = some (CalcOutcome.fail ["Division by zero"]) := by
  refine ⟨?_, by decide!, by decide!⟩
  intro v
  cases v with
  | num a => simp [jsMod]
  | nan => simp [jsMod]

/-- C5: whenever `Sender.calculate` fails, the error list has exactly one
message and the stored rate is exactly what it was before the call. -/
theorem c5_single_error_rate_unchanged :
    ∀ (oracle : String → List Val → Val) (fuel : Nat) (sn : Sender) (traffic : Val)
      (ps : List (String × Val)) (errs : List String) (sn' : Sender),
      Sender.calculate oracle fuel sn traffic ps = some (CalcOutcome.fail errs, sn') →
      errs.length = 1 ∧ sn'.rate = sn.rate := by
  intro oracle fuel sn traffic ps errs sn' h
  simp only [Sender.calculate] at h
  split at h
  · simp at h
  · rename_i pres ret pr1 hp
    split at h
    · simp at h
    · rename_i errs0 herrs
      split at h
      · rename_i hlen
        simp only [Option.some.injEq, Prod.mk.injEq, CalcOutcome.fail.injEq] at h
        obtain ⟨hout, hsn⟩ := h
        have hle := (parse_normal _ _ _ _ _ _ hp errs0 herrs).2.1
        subst hout
        refine ⟨by omega, ?_⟩
        rw [← hsn]
      · simp at h

/-- Witness for C5: the division-by-zero script fails with exactly one
message and an unchanged rate. -/
theorem c5_single_error_rate_unchanged_witness :
    (["Division by zero"] : List String).length = 1 ∧ c5resS.rate = c5start.rate :=
  c5_single_error_rate_unchanged oracle0 100 c5start (Val.num 0) [] ["Division by zero"]
    c5resS (by decide!)

/-- C7: exactly one of the two `if`/`else` blocks executes.  The non-taken
branch is consumed by `skipBlock`, which can never throw and leaves the
variable environment and token stream untouched (the executor state does
not even carry the static store, so a skipped assignment cannot reach
it).  Concretely, with `traffic = 1.5` the script
`if(traffic>1){rate=0;}else{rate=1;}` leaves `rate = 0`, and a static
side effect placed in the else branch never happens. -/
theorem c7_branch_exclusivity :
    (∀ (fuel depth : Nat) (es : ExecState) (r : Except String Unit) (es' : ExecState),
       skipBlockF fuel depth es = some (r, es') →
       r = Except.ok () ∧ es'.variables = es.variables ∧ es'.tokens = es.tokens) ∧
    outcomeOf c7plainCalc = some (CalcOutcome.ok (Val.num 0)) ∧
    outcomeOf c7statCalc = some (CalcOutcome.ok (Val.num 0)) ∧
    lookupVar c7statS.parser.staticVariables "w" = some (Val.num 0) :=
  ⟨skipBlockF_frame, by decide!, by decide!, by decide!⟩

/-- Witness for C7: a concrete skip run (over `x } …`) returns `ok` and
preserves the environment. -/
theorem c7_branch_exclusivity_witness :
    (Except.ok () : Except String Unit) = Except.ok () ∧
    c7skipEs'.variables = c7skipEs.variables ∧
    c7skipEs'.tokens = c7skipEs.tokens :=
  c7_branch_exclusivity.1 10 1 c7skipEs (Except.ok ()) c7skipEs' (by decide!)

/-- C8: `&&` and `||` always evaluate both operands — an error while
evaluating the right operand surfaces even when the left already decides
the result — and the combination is exactly `1` when the condition holds
and exactly `0` otherwise. -/
theorem c8_logical_ops :
    (∀ a b : Val,
       (orCombine a b = Val.num 1 ∨ orCombine a b = Val.num 0) ∧
       (orCombine a b = Val.num 1 ↔ (jsGtZero a || jsGtZero b) = true) ∧
       (andCombine a b = Val.num 1 ∨ andCombine a b = Val.num 0) ∧
       (andCombine a b = Val.num 1 ↔ (jsGtZero a && jsGtZero b) = true)) ∧
    outcomeOf c8andCalc = some (CalcOutcome.fail ["Undefined variable \x27x\x27 at line 1"]) ∧
    outcomeOf c8orCalc = some (CalcOutcome.fail ["Undefined variable \x27x\x27 at line 1"]) := by
  refine ⟨?_, by decide!, by decide!⟩
  intro a b
  cases hor : (jsGtZero a || jsGtZero b) <;> cases hand : (jsGtZero a && jsGtZero b) <;>
    simp [orCombine, andCombine, boolVal, hor, hand]

/-- C9: `#define_param` without a default clause yields a descriptor whose
default value is `parseFloat(min)` — the very value recorded as its
minimum — and seeds the environment only when the name is absent;
`#define_var` seeds the static store (and environment) only when the
static store lacks the name, so an evolving static value survives
successive parses (concretely, a static counter reaches 2 after two
calculate calls). -/
theorem c9_directive_processing :
    (∀ (st : ScriptParser) (directive name mnS mxS : String),
       matchDefineParamWs (splitWs directive) = some (name, mnS, mxS, none) →
       (handlePreprocessor directive st).params =
         st.params ++ [⟨name, some (jsParseFloat mnS), some (jsParseFloat mxS),
                        jsParseFloat mnS, false⟩] ∧
       (handlePreprocessor directive st).staticVariables = st.staticVariables ∧
       (handlePreprocessor directive st).variables =
         (if (lookupVar st.variables name).isSome then st.variables
          else setVar st.variables name (jsParseFloat mnS))) ∧
    (∀ (st : ScriptParser) (directive name vS : String),
       matchDefineParamWs (splitWs directive) = none →
       matchDefineVarWs (splitWs directive) = some (name, vS) →
       (handlePreprocessor directive st).params =
         st.params ++ [⟨name, none, none, jsParseFloat vS, true⟩] ∧
       (handlePreprocessor directive st).variables =
         (if (lookupVar st.staticVariables name).isSome then st.variables
          else setVar st.variables name (jsParseFloat vS)) ∧
       (handlePreprocessor directive st).staticVariables =
         (if (lookupVar st.staticVariables name).isSome then st.staticVariables
          else setVar st.staticVariables name (jsParseFloat vS))) ∧
    lookupVar c9s1.parser.staticVariables "c" = some (Val.num 1) ∧
    lookupVar c9s2.parser.staticVariables "c" = some (Val.num 2) := by
  refine ⟨?_, ?_, by decide!, by decide!⟩
  · intro st directive name mnS mxS h
    by_cases hv : (lookupVar st.variables name).isSome
    · simp [handlePreprocessor, h, hv]
    · simp only [Bool.not_eq_true] at hv
      simp [handlePreprocessor, h, hv]
  · intro st directive name vS hp hv
    by_cases hs : (lookupVar st.staticVariables name).isSome
    · simp [handlePreprocessor, hp, hv, hs]
    · simp only [Bool.not_eq_true] at hs
      simp [handlePreprocessor, hp, hv, hs]

/-- C10: a failing parse is not atomic with respect to the static store:
the final static store is the write-back of every static parameter's
current environment value even when the run ended in an error, so a
static assignment before the failing statement persists into the next
invocation, while the Sender's stored rate stays untouched. -/
theorem c10_error_not_atomic :
    (∀ (oracle : String → List Val → Val) (fuel : Nat) (sp : ScriptParser) (ctx : Context)
       (ret : ParseRet) (sp' : ScriptParser) (errs : List String),
       ScriptParser.parse oracle fuel sp ctx = some (ret, sp') →
       ret.errors = some errs →
       ∀ p ∈ sp'.params, p.isStatic = true →
         lookupVar sp'.staticVariables p.name =
           some ((lookupVar sp'.variables p.name).getD Val.nan)) ∧
    outcomeOf c10calc1 = some (CalcOutcome.fail ["Undefined variable \x27x\x27 at line 3"]) ∧
    c10s1.rate = c10start.rate ∧
    lookupVar c10s1.parser.variables "c" = some (Val.num 1) ∧
    lookupVar c10s1.parser.staticVariables "c" = some (Val.num 1) ∧
    lookupVar c10s2.parser.staticVariables "c" = some (Val.num 2) := by
  refine ⟨?_, by decide!, by decide!, by decide!, by decide!, by decide!⟩
  intro oracle fuel sp ctx ret sp' errs h he p hmem hstatic
  obtain ⟨st0, hst⟩ := (parse_normal _ _ _ _ _ _ h errs he).2.2.2
  rw [hst, writeback_lookup]
  have hany : sp'.params.any (fun q => q.isStatic && q.name == p.name) = true := by
    rw [List.any_eq_true]
    exact ⟨p, hmem, by simp [hstatic]⟩
  simp [hany]

/-- Witness for C10: the concrete failing parse of the counter script
satisfies the write-back property at the static parameter `c`. -/
theorem c10_error_not_atomic_witness :
    lookupVar c10spOut.staticVariables "c" =
      some ((lookupVar c10spOut.variables "c").getD Val.nan) :=
  c10_error_not_atomic.1 oracle0 100 c10pr ⟨Val.num 0, Val.num 0⟩ c10ret c10spOut
    ["Undefined variable \x27x\x27 at line 3"] (by decide!) (by decide!)
    ⟨"c", none, none, Val.num 0, true⟩ (by decide!) (by decide!)

/-- What one gated sender step can do: it invokes `calculate` exactly when
`step % rtt = 0`, and a non-invoked sender is returned unchanged. -/
theorem runSenderStep_cases (oracle : String → List Val → Val) (fuel step r : Nat)
    (sn : Sender) (traffic : Val) (ps : List (String × Val)) (sn' : Sender)
    (errs : List String) (inv : Bool)
    (h : runSenderStep oracle fuel step r sn traffic ps = some (Except.ok (sn', errs, inv))) :
    (inv = true ↔ step % r = 0) ∧ (inv = false → sn' = sn) := by
  by_cases hg : step % r = 0
  · simp only [runSenderStep, hg, if_pos] at h
    cases hc : Sender.calculate oracle fuel sn traffic ps with
    | none => rw [hc] at h; simp at h
    | some pr =>
      obtain ⟨out, sn1⟩ := pr
      rw [hc] at h
      cases out with
      | crash m => simp at h
      | ok rv =>
        simp only [Option.some.injEq, Except.ok.injEq, Prod.mk.injEq] at h
        obtain ⟨h1, h2, h3⟩ := h
        subst h3
        exact ⟨by simp [hg], by intro hq; cases hq⟩
      | fail es0 =>
        simp only [Option.some.injEq, Except.ok.injEq, Prod.mk.injEq] at h
        obtain ⟨h1, h2, h3⟩ := h
        subst h3
        exact ⟨by simp [hg], by intro hq; cases hq⟩
  · simp only [runSenderStep, hg, if_neg, not_false_iff] at h
    simp only [Option.some.injEq, Except.ok.injEq, Prod.mk.injEq] at h
    obtain ⟨h1, h2, h3⟩ := h
    subst h1
    subst h3
    refine ⟨by simp [hg], fun _ => rfl⟩

/-- The invariant of the engine's step loop over steps `s … s + n - 1`:
record `k` holds the post-step-`k` rates, a sender not gated at step `k`
keeps the rate of record `k - 1`, and the ghost log holds exactly the
RTT-eligible `(step, senderIndex)` pairs. -/
theorem runLoop_spec (oracle : String → List Val → Val) (fuel : Nat)
    (p0 p1 : List (String × Val)) (rtt : Nat × Nat) (duration : Nat) :
    ∀ (n s : Nat) (s0 s1 : Sender) (traj : List StepRec) (log : List (Nat × Nat)) (cur : Nat)
      (sns' : Sender × Sender) (traj' : List StepRec) (log' : List (Nat × Nat)) (cur' : Nat),
      runLoop oracle fuel p0 p1 rtt duration (stepsFrom s n) (s0, s1) traj log cur =
        some (Except.ok (sns', traj', log', cur')) →
      traj.length = s →
      1 ≤ s →
      (∃ last, traj.get? (s - 1) = some last ∧ last.x = s0.rate ∧ last.y = s1.rate) →
      traj'.length = s + n ∧
      (∀ k, k < s → traj'.get? k = traj.get? k) ∧
      (∀ k rc, s ≤ k → traj'.get? k = some rc → rc.step = k) ∧
      (∀ k rc pv, s ≤ k → traj'.get? k = some rc → traj'.get? (k - 1) = some pv →
         (k % rtt.1 ≠ 0 → rc.x = pv.x) ∧ (k % rtt.2 ≠ 0 → rc.y = pv.y)) ∧
      (∀ q : Nat × Nat, q ∈ log' ↔ q ∈ log ∨ ∃ k, s ≤ k ∧ k < s + n ∧
         ((q = (k, 0) ∧ k % rtt.1 = 0) ∨ (q = (k, 1) ∧ k % rtt.2 = 0))) ∧
      (∃ last, traj'.get? (s + n - 1) = some last ∧
        last.x = sns'.1.rate ∧ last.y = sns'.2.rate) := by
  intro n
  induction n with
  | zero =>
    intro s s0 s1 traj log cur sns' traj' log' cur' h hlen hs hlast
    simp only [stepsFrom, runLoop] at h
    simp only [Option.some.injEq, Except.ok.injEq, Prod.mk.injEq] at h
    obtain ⟨hsns, htraj, hlog, hcur⟩ := h
    subst htraj
    subst hlog
    refine ⟨by omega, fun k _ => rfl, ?_, ?_, ?_, ?_⟩
    · intro k rc hk hget
      obtain ⟨hlt, _⟩ := List.get?_eq_some.mp hget
      omega
    · intro k rc pv hk hget hprev
      obtain ⟨hlt, _⟩ := List.get?_eq_some.mp hget
      omega
    · intro q
      constructor
      · exact fun hq => Or.inl hq
      · rintro (hq | ⟨k, hk1, hk2, _⟩)
        · exact hq
        · omega
    · rw [← hsns]
      simpa using hlast
  | succ n ih =>
    intro s s0 s1 traj log cur sns' traj' log' cur' h hlen hs hlast
    rw [show stepsFrom s (n + 1) = s :: stepsFrom (s + 1) n from rfl] at h
    simp only [runLoop] at h
    cases h0 : runSenderStep oracle fuel s rtt.1 s0 (addV s0.getRate s1.getRate) p0 with
    | none => rw [h0] at h; simp at h
    | some e0 =>
      rw [h0] at h
      cases e0 with
      | error m => simp at h
      | ok t0 =>
        obtain ⟨s0', e0s, i0⟩ := t0
        cases h1 : runSenderStep oracle fuel s rtt.2 s1 (addV s0.getRate s1.getRate) p1 with
        | none => rw [h1] at h; simp at h
        | some e1 =>
          rw [h1] at h
          cases e1 with
          | error m => simp at h
          | ok t1 =>
            obtain ⟨s1', e1s, i1⟩ := t1
            obtain ⟨hiff0, hun0⟩ := runSenderStep_cases _ _ _ _ _ _ _ _ _ _ h0
            obtain ⟨hiff1, hun1⟩ := runSenderStep_cases _ _ _ _ _ _ _ _ _ _ h1
            obtain ⟨last, hlget, hlx, hly⟩ := hlast
            have ihres := ih (s + 1) s0' s1' _ _ s sns' traj' log' cur' h
              (by simp [hlen]) (by omega)
              ⟨_, by rw [← hlen]; exact List.get?_concat_length _ _, rfl, rfl⟩
            obtain ⟨ihlen, ihpre, ihstep, ihhold, ihlog, ihlast⟩ := ihres
            have hpre : ∀ k, k < s → traj'.get? k = traj.get? k := by
              intro k hk
              rw [ihpre k (by omega), List.get?_append (by omega)]
            have hats : traj'.get? s = some
                { step := s, x := s0'.getRate, y := s1'.getRate,
                  oldX := some s0.getRate, oldY := some s1.getRate,
                  traffic := some (addV s0'.getRate s1'.getRate),
                  distance := some (jsSqrtO oracle
                    (addV (jsPowO oracle (subV (Val.num (1 / 2)) s0'.getRate) (Val.num 2))
                          (jsPowO oracle (subV (Val.num (1 / 2)) s1'.getRate) (Val.num 2)))),
                  progress := some (Val.num ((s : ℚ) / (duration : ℚ))) } := by
              rw [ihpre s (by omega), ← hlen]
              exact List.get?_concat_length _ _
            refine ⟨by omega, hpre, ?_, ?_, ?_, ?_⟩
            · intro k rc hk hget
              by_cases hk1 : s + 1 ≤ k
              · exact ihstep k rc hk1 hget
              · have hks : k = s := by omega
                subst hks
                rw [hats] at hget
                cases hget
                rfl
            · intro k rc pv hk hget hprev
              by_cases hk1 : s + 1 ≤ k
              · exact ihhold k rc pv hk1 hget hprev
              · have hks : k = s := by omega
                subst hks
                rw [hats] at hget
                cases hget
                rw [hpre (k - 1) (by omega), hlget] at hprev
                injection hprev with hpv
                subst hpv
                constructor
                · intro hne
                  have hi0 : i0 = false := by
                    cases hcase : i0 with
                    | true => exact absurd (hiff0.mp hcase) hne
                    | false => rfl
                  rw [hun0 hi0]
                  exact hlx.symm
                · intro hne
                  have hi1 : i1 = false := by
                    cases hcase : i1 with
                    | true => exact absurd (hiff1.mp hcase) hne
                    | false => rfl
                  rw [hun1 hi1]
                  exact hly.symm
            · intro q
              rw [ihlog q]
              constructor
              · rintro (hq | ⟨k, hk1, hk2, hg⟩)
                · rcases List.mem_append.mp hq with hq2 | hq3
                  · rcases List.mem_append.mp hq2 with hq4 | hq5
                    · exact Or.inl hq4
                    · by_cases hi0 : i0 = true
                      · rw [if_pos hi0] at hq5
                        simp only [List.mem_singleton] at hq5
                        exact Or.inr ⟨s, le_refl s, by omega,
                          Or.inl ⟨hq5, hiff0.mp hi0⟩⟩
                      · rw [if_neg hi0] at hq5
                        simp at hq5
                  · by_cases hi1 : i1 = true
                    · rw [if_pos hi1] at hq3
                      simp only [List.mem_singleton] at hq3
                      exact Or.inr ⟨s, le_refl s, by omega,
                        Or.inr ⟨hq3, hiff1.mp hi1⟩⟩
                    · rw [if_neg hi1] at hq3
                      simp at hq3
                · exact Or.inr ⟨k, by omega, by omega, hg⟩
              · rintro (hq | ⟨k, hk1, hk2, hg⟩)
                · exact Or.inl (List.mem_append.mpr (Or.inl (List.mem_append.mpr (Or.inl hq))))
                · by_cases hk : s + 1 ≤ k
                  · exact Or.inr ⟨k, hk, by omega, hg⟩
                  · have hks : k = s := by omega
                    subst hks
                    left
                    rcases hg with ⟨hq0, hg0⟩ | ⟨hq1, hg1⟩
                    · have hi0 : i0 = true := hiff0.mpr hg0
                      subst hq0
                      exact List.mem_append.mpr (Or.inl (List.mem_append.mpr
                        (Or.inr (by rw [if_pos hi0]; simp))))
                    · have hi1 : i1 = true := hiff1.mpr hg1
                      subst hq1
                      exact List.mem_append.mpr (Or.inr (by rw [if_pos hi1]; simp))
            · have heq : s + 1 + n - 1 = s + (n + 1) - 1 := by omega
              rw [heq] at ihlast
              exact ihlast

/-- C6: in a completed simulation run, sender `i`'s `calculate` is invoked
at step `step` exactly when `step % rtt[i] = 0` (read off the ghost
invocation log), trajectory record `k` is the state after step `k`, and
at every step where a sender is not invoked its rate is unchanged from
the preceding trajectory record. -/
theorem c6_rtt_gating :
    ∀ (oracle : String → List Val → Val) (fuel : Nat) (eng : SimulationEngine)
      (p0 p1 : List (String × Val)) (eng' : SimulationEngine) (log : List (Nat × Nat)),
      eng.isRunning = false →
      SimulationEngine.run oracle fuel eng p0 p1 = some (Except.ok (eng', log)) →
      (∀ step i, (step, i) ∈ log ↔
         (1 ≤ step ∧ step ≤ eng.duration ∧
           ((i = 0 ∧ step % eng.rtt.1 = 0) ∨ (i = 1 ∧ step % eng.rtt.2 = 0)))) ∧
      eng'.trajectory.length = eng.duration + 1 ∧
      (∀ k rc, eng'.trajectory.get? k = some rc → rc.step = k) ∧
      (∀ step rc pv, 1 ≤ step →
         eng'.trajectory.get? step = some rc →
         eng'.trajectory.get? (step - 1) = some pv →
         (step % eng.rtt.1 ≠ 0 → rc.x = pv.x) ∧
         (step % eng.rtt.2 ≠ 0 → rc.y = pv.y)) := by
  intro oracle fuel eng p0 p1 eng' log hidle h
  simp only [SimulationEngine.run, hidle] at h
  split at h
  · rename_i hft
    simp at hft
  split at h
  · simp at h
  · simp at h
  · rename_i sns traj log0 cur hrl
    simp only [Option.some.injEq, Except.ok.injEq, Prod.mk.injEq] at h
    obtain ⟨heng, hlog⟩ := h
    subst hlog
    have spec := runLoop_spec oracle fuel p0 p1 eng.rtt eng.duration eng.duration 1
      (eng.senders.1.resetStaticVars) (eng.senders.2.resetStaticVars) _ _ 0
      sns traj log0 cur hrl rfl (le_refl 1) ⟨_, rfl, rfl, rfl⟩
    obtain ⟨slen, spre, sstep, shold, slog, _⟩ := spec
    have htraj : eng'.trajectory = traj := by rw [← heng]
    refine ⟨?_, ?_, ?_, ?_⟩
    · intro step i
      rw [slog (step, i)]
      constructor
      · rintro (hq | ⟨k, hk1, hk2, hg⟩)
        · simp at hq
        · rcases hg with ⟨hq, hg0⟩ | ⟨hq, hg1⟩
          · obtain ⟨hq1, hq2⟩ := Prod.mk.injEq .. ▸ hq
            exact ⟨by omega, by omega, Or.inl ⟨hq2, by rw [hq1]; exact hg0⟩⟩
          · obtain ⟨hq1, hq2⟩ := Prod.mk.injEq .. ▸ hq
            exact ⟨by omega, by omega, Or.inr ⟨hq2, by rw [hq1]; exact hg1⟩⟩
      · rintro ⟨hs1, hs2, hg⟩
        rcases hg with ⟨hi, hg0⟩ | ⟨hi, hg1⟩
        · exact Or.inr ⟨step, by omega, by omega, Or.inl ⟨by rw [hi], hg0⟩⟩
        · exact Or.inr ⟨step, by omega, by omega, Or.inr ⟨by rw [hi], hg1⟩⟩
    · rw [htraj]; omega
    · intro k rc hget
      rw [htraj] at hget
      by_cases hk : 1 ≤ k
      · exact sstep k rc hk hget
      · have hk0 : k = 0 := by omega
        subst hk0
        rw [spre 0 (by omega)] at hget
        injection hget with hrc
        rw [← hrc]
    · intro step rc pv hstep hget hprev
      rw [htraj] at hget hprev
      exact shold step rc pv hstep hget hprev

/-- Witness for C6: a concrete completed run (duration 2, RTT divisors
(1, 2)) has a trajectory of length 3. -/
theorem c6_rtt_gating_witness : c6outEng.trajectory.length = c6engW.duration + 1 :=
  (c6_rtt_gating oracle0 100 c6engW [] [] c6outEng c6outLog rfl (by decide!)).2.1

/-- Witness for C9: both directive forms at concrete inputs
(`#define_param alpha range 0 to 1`, `#define_var c 7`). -/
theorem c9_directive_processing_witness :
    ((handlePreprocessor c9dirP (ScriptParser.new "")).params =
       (ScriptParser.new "").params ++
         [⟨"alpha", some (jsParseFloat "0"), some (jsParseFloat "1"),
           jsParseFloat "0", false⟩] ∧
     (handlePreprocessor c9dirP (ScriptParser.new "")).staticVariables =
       (ScriptParser.new "").staticVariables ∧
     (handlePreprocessor c9dirP (ScriptParser.new "")).variables =
       (if (lookupVar (ScriptParser.new "").variables "alpha").isSome
        then (ScriptParser.new "").variables
        else setVar (ScriptParser.new "").variables "alpha" (jsParseFloat "0"))) ∧
    ((handlePreprocessor c9dirV (ScriptParser.new "")).params =
       (ScriptParser.new "").params ++ [⟨"c", none, none, jsParseFloat "7", true⟩] ∧
     (handlePreprocessor c9dirV (ScriptParser.new "")).variables =
       (if (lookupVar (ScriptParser.new "").staticVariables "c").isSome
        then (ScriptParser.new "").variables
        else setVar (ScriptParser.new "").variables "c" (jsParseFloat "7")) ∧
     (handlePreprocessor c9dirV (ScriptParser.new "")).staticVariables =
       (if (lookupVar (ScriptParser.new "").staticVariables "c").isSome
        then (ScriptParser.new "").staticVariables
        else setVar (ScriptParser.new "").staticVariables "c" (jsParseFloat "7"))) :=
  ⟨c9_directive_processing.1 (ScriptParser.new "") c9dirP "alpha" "0" "1" (by decide!),
   c9_directive_processing.2.1 (ScriptParser.new "") c9dirV "c" "7" (by decide!) (by decide!)⟩
